import Mathlib

/-! Shallow embedding of the Ani-Match recommendation code: the Python
function get_recommendations (the content-similarity path, from
src/storeage.txt) together with the frontend form-submission validation
handlers. Scores are modelled as rationals, pandas frames as lists of
records, and the catch-all exception handler as an explicit Except
computation collapsed to a sentinel frame. -/

namespace AniMatch

/-- One row of the catalog frame df: columns name, rating, genre. -/
structure AnimeRow where
  name : String
  rating : ℚ
  genre : String
deriving DecidableEq

/-- One row of a successful result frame: columns Anime, Similarity Score
(a formatted string), Rating, Genres. -/
structure RecRow where
  anime : String
  simScore : String
  rating : ℚ
  genres : String
deriving DecidableEq

/-- A result frame: either the two-column sentinel frame with columns Anime
and Similarity Score and no rows, or a four-column table of rows. -/
inductive Frame where
  | empty2 : Frame
  | table : List RecRow → Frame
deriving DecidableEq

/-- The rows of a result frame. -/
def Frame.rowsList : Frame → List RecRow
  | .empty2 => []
  | .table rs => rs

/-- The column labels of a result frame. -/
def Frame.columns : Frame → List String
  | .empty2 => ["Anime", "Similarity Score"]
  | .table _ => ["Anime", "Similarity Score", "Rating", "Genres"]

/-- Python str.lower, applied characterwise; models the case folding used by
the pandas comparisons in get_recommendations. -/
def lowerStr (s : String) : String := ⟨s.data.map Char.toLower⟩

/-- One entry of the boolean series exact_matches: the lowercased catalog
name equals the lowercased query title. -/
def exactMatch (title nm : String) : Bool := lowerStr nm == lowerStr title

/-- One entry of the boolean series contains_matches: the query title occurs
case-insensitively as a substring of the catalog name (str.contains with
case False and regex False). -/
def containsMatch (title nm : String) : Bool :=
  decide ((lowerStr title).data <:+: (lowerStr nm).data)

/-- Position of the first True entry of a boolean series (pandas idxmax on a
boolean series over the default range index). -/
def firstIdx {α : Type*} (p : α → Bool) : List α → Option Nat
  | [] => none
  | a :: l => if p a then some 0 else (firstIdx p l).map (· + 1)

/-- Lines 4 to 15 of get_recommendations: resolve the query title to the
index idx, exact case-insensitive equality first, then the first
case-insensitive containment in table order; none when no anime matches. -/
def resolveTitle (df : List AnimeRow) (title : String) : Option Nat :=
  match firstIdx (exactMatch title) (df.map AnimeRow.name) with
  | some i => some i
  | none => firstIdx (containsMatch title) (df.map AnimeRow.name)

/-- One hundred times a rational, rounded to the nearest integer with ties
to even: the rounding performed by the Python format specifier .2f on exact
values. It is computed on the numerator and denominator directly, so the
value of one hundred times q is represented by the fraction of 100 times
the numerator over the denominator without renormalizing. -/
def roundHundredths (q : ℚ) : Int :=
  let num : Int := 100 * q.num
  let d : Int := (q.den : Int)
  let f : Int := Int.fdiv num d
  let rn : Int := num - f * d
  if 2 * rn < d then f
  else if d < 2 * rn then f + 1
  else if f % 2 = 0 then f else f + 1

/-- Exactly two decimal digits. -/
def twoDigitString (k : Nat) : String :=
  ⟨[Nat.digitChar (k / 10), Nat.digitChar (k % 10)]⟩

/-- The f-string formatting of a score to two decimal places. -/
def format2dp (q : ℚ) : String :=
  let n := (roundHundredths q).natAbs
  (if q.num < 0 then "-" else "") ++ Nat.repr (n / 100) ++ "." ++ twoDigitString (n % 100)

/-- Comparison used by the sorted call on (index, score) pairs: the key is
the score, descending; scoreGe a b means a sorts no later than b. -/
def scoreGe (a b : Nat × ℚ) : Bool := decide (b.2 ≤ a.2)

/-- Insert into a descending-sorted list, before the first entry whose score
does not exceed it. sortPairs below inserts each element only among entries
that originally followed it, so entries with equal scores keep their
original relative order, matching the stable Python sorted builtin. -/
def insertPair (x : Nat × ℚ) : List (Nat × ℚ) → List (Nat × ℚ)
  | [] => [x]
  | y :: l => if scoreGe x y then x :: y :: l else y :: insertPair x l

/-- Stable sort of (index, score) pairs by descending score: the embedding
of sorted with the score key and reverse order over an enumerated row. -/
def sortPairs : List (Nat × ℚ) → List (Nat × ℚ)
  | [] => []
  | x :: l => insertPair x (sortPairs l)

/-- Lines 18 and 19 of get_recommendations: sim_scores, the sorted pair list
sliced from position one through n, dropping the presumed self entry. -/
def simPairs (row : List ℚ) (n : Nat) : List (Nat × ℚ) :=
  ((sortPairs row.enum).drop 1).take n

/-- The ranking order the stable descending sort produces on enumerated
pairs: scores non-increasing, and ties kept in original index order. -/
def RankedBefore (a b : Nat × ℚ) : Prop :=
  b.2 ≤ a.2 ∧ (a.2 = b.2 → a.1 < b.1)

/-- A Python exception reaching the except handler: an IndexError from a
positional lookup that is out of range. -/
inductive PyError where
  | indexError : PyError
deriving DecidableEq

deriving instance DecidableEq for Except

/-- Lines 21 to 26: build the result columns from the selected pairs; a
selected index with no catalog row raises IndexError (modelled as none). -/
def renderRows (df : List AnimeRow) : List (Nat × ℚ) → Option (List RecRow)
  | [] => some []
  | p :: ps =>
    match df[p.1]?, renderRows df ps with
    | some a, some rs => some (⟨a.name, format2dp p.2, a.rating, a.genre⟩ :: rs)
    | _, _ => none

/-- The body of the try block of get_recommendations: resolution, similarity
row lookup, sorting, slicing and rendering; errors are Python exceptions. -/
def get_recommendations_inner (title : String) (df : List AnimeRow)
    (sm : List (List ℚ)) (n : Nat) : Except PyError Frame :=
  match resolveTitle df title with
  | none => Except.ok Frame.empty2
  | some idx =>
    match sm[idx]? with
    | none => Except.error PyError.indexError
    | some row =>
      match renderRows df (simPairs row n) with
      | none => Except.error PyError.indexError
      | some rows => Except.ok (Frame.table rows)

/-- The full get_recommendations: the except handler turns any exception
into the two-column sentinel frame. -/
def get_recommendations (title : String) (df : List AnimeRow)
    (sm : List (List ℚ)) (n : Nat) : Frame :=
  match get_recommendations_inner title df sm n with
  | Except.ok f => f
  | Except.error _ => Frame.empty2

/-- There is an exact case-insensitive match at position k. -/
def exactAt (df : List AnimeRow) (title : String) (k : Nat) : Prop :=
  ∃ a, df[k]? = some a ∧ exactMatch title a.name = true

/-- There is a case-insensitive containment match at position k. -/
def containsAt (df : List AnimeRow) (title : String) (k : Nat) : Prop :=
  ∃ a, df[k]? = some a ∧ containsMatch title a.name = true

/-- The strategy selector of the frontend search forms. -/
inductive Strategy where
  | content | collaborative | hybrid | random
deriving DecidableEq

/-- The SearchParams object of the frontend forms; the Option string fields
model the optional TypeScript fields title and userId. -/
structure SearchParams where
  strat : Strategy
  title : Option String
  userId : Option String
  count : String
deriving DecidableEq

/-- Whitespace trim of a string at both ends (String.prototype.trim). -/
def trimStr (s : String) : String :=
  ⟨((s.data.dropWhile Char.isWhitespace).reverse.dropWhile Char.isWhitespace).reverse⟩

/-- Falsity of the optionally chained trim: the field is absent or trims to
the empty string. -/
def blankOpt : Option String → Bool
  | none => true
  | some s => trimStr s == ""

/-- JS falsiness of an optional string: absent or empty. -/
def falsyOpt : Option String → Bool
  | none => true
  | some s => s == ""

/-- handleSubmit of the fully validating SearchForm variant: returns the
request passed to onSearch, or none when validation rejects the
submission. -/
def searchFormSubmitV2 (p : SearchParams) : Option SearchParams :=
  if p.strat = Strategy.content ∧ blankOpt p.title then none
  else if p.strat = Strategy.collaborative ∧ blankOpt p.userId then none
  else if p.strat = Strategy.hybrid ∧ (blankOpt p.title ∨ blankOpt p.userId) then none
  else some p

/-- handleSubmit of the other SearchForm variant: only the collaborative
strategy with a falsy userId is rejected. -/
def searchFormSubmitV3 (p : SearchParams) : Option SearchParams :=
  if p.strat = Strategy.collaborative ∧ falsyOpt p.userId then none
  else some p

/-- The state passed by SearchSection.handleSearch. -/
structure SectionQuery where
  title : String
  userId : String
  method : String
  count : Nat
  typeTag : String
deriving DecidableEq

/-- SearchSection.handleSearch: it returns early only when the trimmed title
is empty and the method is not collab; otherwise the request is sent. -/
def sectionHandleSearch (q : SectionQuery) : Option SectionQuery :=
  if trimStr q.title = "" ∧ q.method ≠ "collab" then none
  else some q

/-- The three-item catalog of the spec scenarios. -/
def narutoCatalog : List AnimeRow :=
  [⟨"Naruto", 8, "Action, Adventure"⟩,
   ⟨"Bleach", mkRat 15 2, "Action, Supernatural"⟩,
   ⟨"K-On!", 7, "Slice of Life"⟩]

/-- A similarity matrix for narutoCatalog with strict self-maxima. -/
def narutoSim : List (List ℚ) :=
  [[1, mkRat 9 10, mkRat 1 10],
   [mkRat 9 10, 1, mkRat 1 5],
   [mkRat 1 10, mkRat 1 5, 1]]

/-- A two-item catalog whose items are duplicates of one another. -/
def dupCatalog : List AnimeRow :=
  [⟨"A", 5, "Action"⟩, ⟨"B", 5, "Action"⟩]

/-- The cosine similarity matrix of dupCatalog: identical feature vectors
give similarity one everywhere. -/
def dupSim : List (List ℚ) := [[1, 1], [1, 1]]

/-- A malformed state: two catalog items but a single-row similarity
matrix. -/
def shortSim : List (List ℚ) := [[1, 0]]

/-- A single-item catalog and its one-by-one similarity matrix. -/
def soloCatalog : List AnimeRow := [⟨"Solo", 6, "Drama"⟩]

/-- The similarity matrix of soloCatalog. -/
def soloSim : List (List ℚ) := [[1]]

/-! Lemmas about the stable descending sort. -/

theorem insertPair_perm (x : Nat × ℚ) (l : List (Nat × ℚ)) :
    List.Perm (insertPair x l) (x :: l) := by
  induction l with
  | nil => simp [insertPair]
  | cons y l ih =>
    by_cases h : scoreGe x y = true
    · simp [insertPair, h]
    · have hb : scoreGe x y = false := by simpa using h
      simp only [insertPair, hb, Bool.false_eq_true, if_false]
      exact (ih.cons y).trans (List.Perm.swap x y l)

theorem sortPairs_perm (l : List (Nat × ℚ)) : List.Perm (sortPairs l) l := by
  induction l with
  | nil => simp [sortPairs]
  | cons x l ih =>
    exact (insertPair_perm x (sortPairs l)).trans (ih.cons x)

theorem pairwise_insertPair {x : Nat × ℚ} {l : List (Nat × ℚ)}
    (hl : l.Pairwise RankedBefore) (hx : ∀ y ∈ l, x.1 < y.1) :
    (insertPair x l).Pairwise RankedBefore := by
  induction l with
  | nil => simp [insertPair, RankedBefore]
  | cons y l ih =>
    rcases List.pairwise_cons.mp hl with ⟨hyl, hl'⟩
    by_cases h : scoreGe x y = true
    · have hxy : y.2 ≤ x.2 := by simpa [scoreGe] using h
      simp only [insertPair, h, if_true]
      refine List.pairwise_cons.mpr ⟨?_, hl⟩
      intro z hz
      rcases List.mem_cons.mp hz with rfl | hz
      · exact ⟨hxy, fun _ => hx z (List.mem_cons_self z l)⟩
      · exact ⟨le_trans (hyl z hz).1 hxy, fun _ => hx z (List.mem_cons_of_mem y hz)⟩
    · have hb : scoreGe x y = false := by simpa using h
      have hxy : x.2 < y.2 := by
        have hnot : ¬ y.2 ≤ x.2 := by simpa [scoreGe] using hb
        exact lt_of_not_le hnot
      simp only [insertPair, hb, Bool.false_eq_true, if_false]
      refine List.pairwise_cons.mpr
        ⟨?_, ih hl' (fun z hz => hx z (List.mem_cons_of_mem y hz))⟩
      intro z hz
      have hz' : z = x ∨ z ∈ l := by
        simpa using (insertPair_perm x l).mem_iff.mp hz
      rcases hz' with rfl | hz'
      · exact ⟨le_of_lt hxy, fun he => absurd (he ▸ hxy) (lt_irrefl _)⟩
      · exact hyl z hz'

theorem pairwise_sortPairs {l : List (Nat × ℚ)}
    (h : l.Pairwise fun a b => a.1 < b.1) :
    (sortPairs l).Pairwise RankedBefore := by
  induction l with
  | nil => simp [sortPairs]
  | cons x l ih =>
    rcases List.pairwise_cons.mp h with ⟨hxl, hl⟩
    exact pairwise_insertPair (ih hl)
      (fun y hy => hxl y ((sortPairs_perm l).mem_iff.mp hy))

theorem enum_pairwise (row : List ℚ) :
    row.enum.Pairwise fun a b => a.1 < b.1 := by
  have h : (row.enum.map Prod.fst).Pairwise (· < ·) := by
    rw [List.enum_map_fst]
    exact List.pairwise_lt_range _
  exact List.pairwise_map.mp h

theorem sortPairs_enum_pairwise (row : List ℚ) :
    (sortPairs row.enum).Pairwise RankedBefore :=
  pairwise_sortPairs (enum_pairwise row)

theorem simPairs_pairwise (row : List ℚ) (n : Nat) :
    (simPairs row n).Pairwise RankedBefore := by
  have h1 : ((sortPairs row.enum).drop 1).Pairwise RankedBefore :=
    List.Pairwise.sublist (List.drop_sublist 1 _) (sortPairs_enum_pairwise row)
  exact List.Pairwise.sublist (List.take_sublist n _) h1

theorem simPairs_length_le (row : List ℚ) (n : Nat) :
    (simPairs row n).length ≤ n :=
  List.length_take_le n _

theorem simPairs_fst_ne {row : List ℚ} {n idx : Nat}
    (hmax : ∀ j, j < row.length → j ≠ idx → row.getD j 0 < row.getD idx 0) :
    ∀ p ∈ simPairs row n, p.1 ≠ idx := by
  intro p hp
  have hpd : p ∈ (sortPairs row.enum).drop 1 := List.mem_of_mem_take hp
  by_cases hidx : idx < row.length
  · have hperm := sortPairs_perm row.enum
    have hpw := sortPairs_enum_pairwise row
    have hmem : (idx, row.getD idx 0) ∈ sortPairs row.enum := by
      apply hperm.mem_iff.mpr
      rw [List.mem_enum_iff_getElem?]
      simp [List.getElem?_eq_getElem hidx]
    cases hS : sortPairs row.enum with
    | nil => rw [hS] at hmem; exact absurd hmem (List.not_mem_nil _)
    | cons hd t =>
      rw [hS] at hmem hperm hpw hpd
      have hhd : hd = (idx, row.getD idx 0) := by
        rcases List.mem_cons.mp hmem with heq | hmem_t
        · exact heq.symm
        · have hR := (List.pairwise_cons.mp hpw).1 _ hmem_t
          have hhdmem : hd ∈ row.enum :=
            hperm.mem_iff.mp (List.mem_cons_self hd t)
          have h2 : row[hd.1]? = some hd.2 := List.mem_enum_iff_getElem?.mp hhdmem
          have hlt : hd.1 < row.length := List.fst_lt_of_mem_enum hhdmem
          by_cases he : hd.1 = idx
          · have : row[idx]? = some hd.2 := he ▸ h2
            have hval : hd.2 = row.getD idx 0 := by
              simp [List.getElem?_eq_getElem hidx] at this
              simp [List.getD_eq_getElem?_getD, List.getElem?_eq_getElem hidx, this]
            calc hd = (hd.1, hd.2) := rfl
              _ = (idx, row.getD idx 0) := by rw [he, hval]
          · have hstrict : row.getD hd.1 0 < row.getD idx 0 := hmax hd.1 hlt he
            have hval : hd.2 = row.getD hd.1 0 := by
              simp [List.getD_eq_getElem?_getD, h2]
            have hle : row.getD idx 0 ≤ hd.2 := hR.1
            rw [hval] at hle
            exact absurd (lt_of_le_of_lt hle hstrict) (lt_irrefl _)
      have hnodup : ((hd :: t).map Prod.fst).Nodup := by
        refine ((hperm.map Prod.fst).nodup_iff).mpr ?_
        exact List.nodup_enum_map_fst row
      have hpt : p ∈ t := by simpa using hpd
      have hne : hd.1 ∉ t.map Prod.fst := (List.nodup_cons.mp hnodup).1
      intro hcontra
      apply hne
      have : p.1 ∈ t.map Prod.fst := List.mem_map_of_mem Prod.fst hpt
      rw [hhd]
      simpa [hcontra] using this
  · have hpS : p ∈ sortPairs row.enum := List.mem_of_mem_drop hpd
    have hpe : p ∈ row.enum := (sortPairs_perm row.enum).mem_iff.mp hpS
    have := List.fst_lt_of_mem_enum hpe
    omega

/-! Lemmas about first-match resolution. -/

theorem firstIdx_eq_none_iff {α : Type*} {p : α → Bool} {l : List α} :
    firstIdx p l = none ↔ ∀ a ∈ l, p a = false := by
  induction l with
  | nil => simp [firstIdx]
  | cons a l ih =>
    by_cases h : p a = true
    · simp [firstIdx, h]
    · have hb : p a = false := by simpa using h
      simp [firstIdx, hb, Option.map_eq_none', ih]

theorem firstIdx_eq_some_iff {α : Type*} {p : α → Bool} {l : List α} {k : Nat} :
    firstIdx p l = some k ↔
      (∃ a, l[k]? = some a ∧ p a = true) ∧
      ∀ j, j < k → ∀ a, l[j]? = some a → p a = false := by
  induction l generalizing k with
  | nil => simp [firstIdx]
  | cons x l ih =>
    by_cases hx : p x = true
    · simp only [firstIdx, hx, if_true]
      constructor
      · intro h
        have hk : k = 0 := by
          have := Option.some.inj h
          omega
        subst hk
        exact ⟨⟨x, by simp, hx⟩, fun j hj => absurd hj (Nat.not_lt_zero j)⟩
      · rintro ⟨⟨a, ha, hpa⟩, hj⟩
        cases k with
        | zero => rfl
        | succ m =>
          have := hj 0 (Nat.succ_pos m) x (by simp)
          rw [this] at hx
          exact absurd hx (by simp)
    · have hb : p x = false := by simpa using hx
      simp only [firstIdx, hb, Bool.false_eq_true, if_false]
      constructor
      · intro h
        rcases Option.map_eq_some'.mp h with ⟨m, hm, hmk⟩
        subst hmk
        rcases ih.mp hm with ⟨⟨a, ha, hpa⟩, hjs⟩
        refine ⟨⟨a, by simpa using ha, hpa⟩, ?_⟩
        intro j hj a' ha'
        cases j with
        | zero =>
          have hax : x = a' := by simpa using ha'
          rw [← hax]
          exact hb
        | succ i =>
          exact hjs i (by omega) a' (by simpa using ha')
      · rintro ⟨⟨a, ha, hpa⟩, hjs⟩
        cases k with
        | zero =>
          have hax : x = a := by simpa using ha
          rw [← hax] at hpa
          rw [hpa] at hb
          exact absurd hb (by simp)
        | succ m =>
          apply Option.map_eq_some'.mpr
          refine ⟨m, ih.mpr ⟨⟨a, by simpa using ha, hpa⟩, ?_⟩, rfl⟩
          intro j hj a' ha'
          exact hjs (j + 1) (by omega) a' (by simpa using ha')

theorem firstIdx_lt_length {α : Type*} {p : α → Bool} {l : List α} {k : Nat}
    (h : firstIdx p l = some k) : k < l.length := by
  rcases (firstIdx_eq_some_iff.mp h).1 with ⟨a, ha, _⟩
  rcases List.getElem?_eq_some.mp ha with ⟨hk, _⟩
  exact hk

theorem first_pos_unique {P : Nat → Prop} {i k : Nat}
    (hi : P i) (hbi : ∀ j, j < i → ¬ P j)
    (hk : P k) (hbk : ∀ j, j < k → ¬ P j) : i = k := by
  rcases Nat.lt_trichotomy i k with h | h | h
  · exact absurd hi (hbk i h)
  · exact h
  · exact absurd hk (hbi k h)

theorem matchAt_iff {df : List AnimeRow} {q : String → Bool} {k : Nat} :
    (∃ a, df[k]? = some a ∧ q a.name = true) ↔
      (∃ s, (df.map AnimeRow.name)[k]? = some s ∧ q s = true) := by
  constructor
  · rintro ⟨a, ha, hq⟩
    exact ⟨a.name, by simp [List.getElem?_map, ha], hq⟩
  · rintro ⟨s, hs, hq⟩
    rw [List.getElem?_map] at hs
    rcases Option.map_eq_some'.mp hs with ⟨a, ha, hns⟩
    exact ⟨a, ha, hns ▸ hq⟩

theorem firstIdx_names_some_iff {df : List AnimeRow} {q : String → Bool} {k : Nat} :
    firstIdx q (df.map AnimeRow.name) = some k ↔
      (∃ a, df[k]? = some a ∧ q a.name = true) ∧
      ∀ j, j < k → ¬ ∃ a, df[j]? = some a ∧ q a.name = true := by
  rw [firstIdx_eq_some_iff]
  constructor
  · rintro ⟨⟨s, hs, hq⟩, hbefore⟩
    refine ⟨matchAt_iff.mpr ⟨s, hs, hq⟩, ?_⟩
    intro j hj hex
    rcases matchAt_iff.mp hex with ⟨s', hs', hq'⟩
    have := hbefore j hj s' hs'
    rw [this] at hq'
    exact absurd hq' (by simp)
  · rintro ⟨hex, hbefore⟩
    refine ⟨matchAt_iff.mp hex, ?_⟩
    intro j hj s hs
    by_contra hq
    have hq' : q s = true := by simpa using hq
    exact hbefore j hj (matchAt_iff.mpr ⟨s, hs, hq'⟩)

theorem firstIdx_names_none_iff {df : List AnimeRow} {q : String → Bool} :
    firstIdx q (df.map AnimeRow.name) = none ↔
      ∀ j : Nat, ¬ ∃ a : AnimeRow, df[j]? = some a ∧ q a.name = true := by
  rw [firstIdx_eq_none_iff]
  constructor
  · rintro h j ⟨a, ha, hq⟩
    have hmem : a.name ∈ df.map AnimeRow.name :=
      List.mem_map_of_mem AnimeRow.name (List.getElem?_mem ha)
    have := h a.name hmem
    rw [this] at hq
    exact absurd hq (by simp)
  · intro h s hmem
    rcases List.mem_map.mp hmem with ⟨a, hadf, rfl⟩
    rcases List.mem_iff_getElem?.mp hadf with ⟨j, hj⟩
    by_contra hq
    exact h j ⟨a, hj, by simpa using hq⟩

theorem no_exactAt_iff {df : List AnimeRow} {title : String} :
    (∀ j, ¬ exactAt df title j) ↔
      firstIdx (exactMatch title) (df.map AnimeRow.name) = none := by
  rw [firstIdx_names_none_iff]
  rfl

theorem no_containsAt_iff {df : List AnimeRow} {title : String} :
    (∀ j, ¬ containsAt df title j) ↔
      firstIdx (containsMatch title) (df.map AnimeRow.name) = none := by
  rw [firstIdx_names_none_iff]
  rfl

theorem resolveTitle_eq_some_iff {df : List AnimeRow} {title : String} {k : Nat} :
    resolveTitle df title = some k ↔
      (exactAt df title k ∧ ∀ j, j < k → ¬ exactAt df title j) ∨
      ((∀ j, ¬ exactAt df title j) ∧ containsAt df title k ∧
        ∀ j, j < k → ¬ containsAt df title j) := by
  unfold resolveTitle
  cases h : firstIdx (exactMatch title) (df.map AnimeRow.name) with
  | some i =>
    have hi := firstIdx_names_some_iff.mp h
    constructor
    · intro hik
      have : i = k := Option.some.inj hik
      subst this
      exact Or.inl hi
    · rintro (⟨hek, hbk⟩ | ⟨hnone, _, _⟩)
      · have : i = k := first_pos_unique hi.1 hi.2 hek hbk
        rw [this]
      · exact absurd hi.1 (hnone i)
  | none =>
    have hnone : ∀ j, ¬ exactAt df title j := no_exactAt_iff.mpr h
    constructor
    · intro hc
      have hk := firstIdx_names_some_iff.mp hc
      exact Or.inr ⟨hnone, hk.1, hk.2⟩
    · rintro (⟨hek, _⟩ | ⟨_, hck, hbk⟩)
      · exact absurd hek (hnone k)
      · exact firstIdx_names_some_iff.mpr ⟨hck, hbk⟩

theorem resolveTitle_lt_length {df : List AnimeRow} {title : String} {k : Nat}
    (h : resolveTitle df title = some k) : k < df.length := by
  unfold resolveTitle at h
  cases he : firstIdx (exactMatch title) (df.map AnimeRow.name) with
  | some i =>
    rw [he] at h
    have : i = k := Option.some.inj h
    subst this
    have := firstIdx_lt_length he
    simpa using this
  | none =>
    rw [he] at h
    have := firstIdx_lt_length h
    simpa using this

/-! Lemmas about rendering and the engine wrapper. -/

theorem renderRows_forall₂ {df : List AnimeRow} {sel : List (Nat × ℚ)}
    {rows : List RecRow} (h : renderRows df sel = some rows) :
    List.Forall₂ (fun p r => ∃ a : AnimeRow, df[p.1]? = some a ∧
      r.anime = a.name ∧ r.simScore = format2dp p.2 ∧
      r.rating = a.rating ∧ r.genres = a.genre) sel rows := by
  induction sel generalizing rows with
  | nil =>
    have hnil : rows = [] := by
      simpa [renderRows] using h.symm
    rw [hnil]
    exact List.Forall₂.nil
  | cons p ps ih =>
    cases ha : df[p.1]? with
    | none =>
      rw [renderRows, ha] at h
      exact absurd h (by simp)
    | some a =>
      cases hre : renderRows df ps with
      | none =>
        rw [renderRows, ha, hre] at h
        exact absurd h (by simp)
      | some rs =>
        rw [renderRows, ha, hre] at h
        have hrows : (⟨a.name, format2dp p.2, a.rating, a.genre⟩ : RecRow) :: rs = rows :=
          Option.some.inj h
        rw [← hrows]
        exact List.Forall₂.cons ⟨a, ha, rfl, rfl, rfl, rfl⟩ (ih hre)

theorem renderRows_length {df : List AnimeRow} {sel : List (Nat × ℚ)}
    {rows : List RecRow} (h : renderRows df sel = some rows) :
    rows.length = sel.length :=
  ((renderRows_forall₂ h).length_eq).symm

theorem renderRows_map_simScore {df : List AnimeRow} {sel : List (Nat × ℚ)}
    {rows : List RecRow} (h : renderRows df sel = some rows) :
    rows.map RecRow.simScore = sel.map fun p => format2dp p.2 := by
  induction sel generalizing rows with
  | nil =>
    have hnil : rows = [] := by simpa [renderRows] using h.symm
    rw [hnil]
    rfl
  | cons p ps ih =>
    cases ha : df[p.1]? with
    | none =>
      rw [renderRows, ha] at h
      exact absurd h (by simp)
    | some a =>
      cases hre : renderRows df ps with
      | none =>
        rw [renderRows, ha, hre] at h
        exact absurd h (by simp)
      | some rs =>
        rw [renderRows, ha, hre] at h
        have hrows : (⟨a.name, format2dp p.2, a.rating, a.genre⟩ : RecRow) :: rs = rows :=
          Option.some.inj h
        rw [← hrows]
        simp [ih hre]

theorem inner_ok_table_iff {title : String} {df : List AnimeRow}
    {sm : List (List ℚ)} {n : Nat} {rows : List RecRow} :
    get_recommendations_inner title df sm n = Except.ok (Frame.table rows) ↔
      ∃ idx row, resolveTitle df title = some idx ∧ sm[idx]? = some row ∧
        renderRows df (simPairs row n) = some rows := by
  cases hr : resolveTitle df title with
  | none => simp [get_recommendations_inner, hr]
  | some idx =>
    cases hm : sm[idx]? with
    | none => simp [get_recommendations_inner, hr, hm]
    | some row =>
      cases hre : renderRows df (simPairs row n) with
      | none => simp [get_recommendations_inner, hr, hm, hre]
      | some rs => simp [get_recommendations_inner, hr, hm, hre]

theorem get_rec_table_iff {title : String} {df : List AnimeRow}
    {sm : List (List ℚ)} {n : Nat} {rows : List RecRow} :
    get_recommendations title df sm n = Frame.table rows ↔
      get_recommendations_inner title df sm n = Except.ok (Frame.table rows) := by
  cases h : get_recommendations_inner title df sm n with
  | ok f => simp [get_recommendations, h]
  | error e => simp [get_recommendations, h]

theorem get_rec_of_inner_error {title : String} {df : List AnimeRow}
    {sm : List (List ℚ)} {n : Nat} {e : PyError}
    (h : get_recommendations_inner title df sm n = Except.error e) :
    get_recommendations title df sm n = Frame.empty2 := by
  simp [get_recommendations, h]

theorem inner_notfound {title : String} {df : List AnimeRow}
    {sm : List (List ℚ)} {n : Nat} (h : resolveTitle df title = none) :
    get_recommendations_inner title df sm n = Except.ok Frame.empty2 := by
  simp [get_recommendations_inner, h]

theorem inner_noRow {title : String} {df : List AnimeRow}
    {sm : List (List ℚ)} {n : Nat} {idx : Nat}
    (h1 : resolveTitle df title = some idx) (h2 : sm[idx]? = none) :
    get_recommendations_inner title df sm n = Except.error PyError.indexError := by
  simp [get_recommendations_inner, h1, h2]

/-! Lemmas about the two-decimal formatting. -/

theorem digitChar_isDigit {d : Nat} (h : d < 10) :
    (Nat.digitChar d).isDigit = true := by
  interval_cases d <;> decide

theorem format2dp_decomp (q : ℚ) :
    format2dp q =
      ((if q.num < 0 then "-" else "") ++ Nat.repr ((roundHundredths q).natAbs / 100))
        ++ "." ++ twoDigitString ((roundHundredths q).natAbs % 100) := rfl

theorem twoDigitString_digits (k : Nat) :
    ∃ c1 c2 : Char, twoDigitString k = (⟨[c1, c2]⟩ : String) ∧
      (k < 100 → c1.isDigit = true) ∧ c2.isDigit = true := by
  refine ⟨Nat.digitChar (k / 10), Nat.digitChar (k % 10), rfl, ?_, ?_⟩
  · intro hk
    exact digitChar_isDigit (by omega)
  · exact digitChar_isDigit (by omega)

theorem format2dp_two_decimals (q : ℚ) :
    ∃ (pre : String) (c1 c2 : Char), format2dp q = pre ++ "." ++ (⟨[c1, c2]⟩ : String) ∧
      c1.isDigit = true ∧ c2.isDigit = true := by
  rcases twoDigitString_digits ((roundHundredths q).natAbs % 100) with ⟨c1, c2, heq, h1, h2⟩
  refine ⟨(if q.num < 0 then "-" else "") ++ Nat.repr ((roundHundredths q).natAbs / 100),
    c1, c2, ?_, h1 (by omega), h2⟩
  rw [format2dp_decomp, heq]

/-! The degenerate catalog lemma. -/

theorem rowsList_empty_of_small {title : String} {df : List AnimeRow}
    {sm : List (List ℚ)} {n : Nat}
    (hlen : df.length < 2) (hsq : sm.length = df.length)
    (hrows : ∀ r ∈ sm, r.length = df.length) :
    (get_recommendations title df sm n).rowsList = [] := by
  cases hr : resolveTitle df title with
  | none => simp [get_recommendations, get_recommendations_inner, hr, Frame.rowsList]
  | some idx =>
    have hidx : idx < df.length := resolveTitle_lt_length hr
    have hdf1 : df.length = 1 := by omega
    have hidx0 : idx = 0 := by omega
    subst hidx0
    have h0 : 0 < sm.length := by omega
    obtain ⟨row, hrow⟩ : ∃ row, sm[0]? = some row :=
      ⟨_, List.getElem?_eq_getElem h0⟩
    have hrl : row.length = 1 := by
      rw [hrows row (List.getElem?_mem hrow), hdf1]
    have hsp : simPairs row n = [] := by
      have hsl : (sortPairs row.enum).length = 1 := by
        rw [(sortPairs_perm row.enum).length_eq]
        simp [hrl]
      have hd : ((sortPairs row.enum).drop 1).length = 0 := by simp [hsl]
      have hnil : (sortPairs row.enum).drop 1 = [] := List.length_eq_zero.mp hd
      simp [simPairs, hnil]
    simp [get_recommendations, get_recommendations_inner, hr, hrow, hsp,
      renderRows, Frame.rowsList]

/-! Claim theorems. -/

/-- C1 (counterexample): on a catalog of two duplicate items with the
all-ones cosine similarity matrix, the query B resolves to index 1, the
sliced sim_scores list selects exactly index 1 — the query item itself —
and the returned table lists the query item B, refuting the claim that the
result never includes the query item. -/
theorem C1_counterexample :
    resolveTitle dupCatalog "B" = some 1 ∧
    (simPairs [1, 1] 5).map Prod.fst = [1] ∧
    (get_recommendations "B" dupCatalog dupSim 5).rowsList.map RecRow.anime = ["B"] := by
  decide

/-- C1 (amended): given the resolved query index and its similarity row,
the sim_scores selection has at most n entries and is sorted by
non-increasing full-precision score, the returned table also has at most n
rows, and whenever the query item's self-score strictly exceeds every other
score of its row the selection never includes the query item itself. -/
theorem C1_amended (title : String) (df : List AnimeRow) (sm : List (List ℚ))
    (n idx : Nat) (row : List ℚ)
    (hres : resolveTitle df title = some idx) (hrow : sm[idx]? = some row) :
    (simPairs row n).length ≤ n ∧
    (simPairs row n).Pairwise (fun a b => b.2 ≤ a.2) ∧
    (∀ rows, get_recommendations title df sm n = Frame.table rows → rows.length ≤ n) ∧
    ((∀ j, j < row.length → j ≠ idx → row.getD j 0 < row.getD idx 0) →
      ∀ p ∈ simPairs row n, p.1 ≠ idx) := by
  refine ⟨simPairs_length_le row n, (simPairs_pairwise row n).imp (fun h => h.1),
    ?_, fun hmax => simPairs_fst_ne hmax⟩
  intro rows hrec
  rcases inner_ok_table_iff.mp (get_rec_table_iff.mp hrec) with ⟨i, r, hres1, hrow1, hren⟩
  rw [hres] at hres1
  have hi : idx = i := Option.some.inj hres1
  rw [← hi] at hrow1
  rw [hrow] at hrow1
  have hr : row = r := Option.some.inj hrow1
  rw [← hr] at hren
  rw [renderRows_length hren]
  exact simPairs_length_le row n

/-- C1 (witness): the amended theorem applied to the spec scenario catalog,
the query naruto, its strict-maximum similarity row, and n equal to two. -/
theorem C1_witness :
    (simPairs [1, mkRat 9 10, mkRat 1 10] 2).length ≤ 2 ∧
    (simPairs [1, mkRat 9 10, mkRat 1 10] 2).Pairwise (fun a b => b.2 ≤ a.2) ∧
    (∀ rows, get_recommendations "naruto" narutoCatalog narutoSim 2 = Frame.table rows →
      rows.length ≤ 2) ∧
    ((∀ j, j < ([1, mkRat 9 10, mkRat 1 10] : List ℚ).length → j ≠ 0 →
        ([1, mkRat 9 10, mkRat 1 10] : List ℚ).getD j 0 <
          ([1, mkRat 9 10, mkRat 1 10] : List ℚ).getD 0 0) →
      ∀ p ∈ simPairs [1, mkRat 9 10, mkRat 1 10] 2, p.1 ≠ 0) :=
  C1_amended "naruto" narutoCatalog narutoSim 2 0 [1, mkRat 9 10, mkRat 1 10]
    (by decide) (by decide)

/-- C2: title resolution is layered: resolveTitle answers k exactly when k is
the first exact case-insensitive match in table order, or, when no exact
match exists anywhere, the first case-insensitive containment match in
table order — no other resolution is possible, hence no fuzzy matching; in
particular the query aru on the spec catalog has no exact match anywhere and
resolves by containment to index 0, the index of Naruto. -/
theorem C2_layered_resolution :
    (∀ (df : List AnimeRow) (title : String) (k : Nat),
      resolveTitle df title = some k ↔
        (exactAt df title k ∧ ∀ j, j < k → ¬ exactAt df title j) ∨
        ((∀ j, ¬ exactAt df title j) ∧ containsAt df title k ∧
          ∀ j, j < k → ¬ containsAt df title j)) ∧
    resolveTitle narutoCatalog "aru" = some 0 ∧
    firstIdx (exactMatch "aru") (narutoCatalog.map AnimeRow.name) = none ∧
    containsMatch "aru" "Naruto" = true :=
  ⟨fun _ _ _ => resolveTitle_eq_some_iff, by decide, by decide, by decide⟩

/-- C3 (counterexample): the query zzz matches nothing in the spec catalog —
no exact and no containment match — yet get_recommendations returns the
empty sentinel frame as an ordinary success of the try body, not a typed
error. -/
theorem C3_counterexample :
    firstIdx (exactMatch "zzz") (narutoCatalog.map AnimeRow.name) = none ∧
    firstIdx (containsMatch "zzz") (narutoCatalog.map AnimeRow.name) = none ∧
    get_recommendations_inner "zzz" narutoCatalog narutoSim 5 = Except.ok Frame.empty2 ∧
    get_recommendations "zzz" narutoCatalog narutoSim 5 = Frame.empty2 := by
  decide

/-- C3 (amended): when the query title has no exact and no substring match
in the catalog, the failure is swallowed: the try body returns the empty
two-column sentinel frame as a success, and the caller receives that empty
result — with columns Anime and Similarity Score — rather than a typed
NotFound error. -/
theorem C3_amended (title : String) (df : List AnimeRow) (sm : List (List ℚ)) (n : Nat)
    (hx : ∀ j, ¬ exactAt df title j) (hc : ∀ j, ¬ containsAt df title j) :
    get_recommendations_inner title df sm n = Except.ok Frame.empty2 ∧
    get_recommendations title df sm n = Frame.empty2 ∧
    (get_recommendations title df sm n).columns = ["Anime", "Similarity Score"] := by
  have hres : resolveTitle df title = none := by
    unfold resolveTitle
    rw [no_exactAt_iff.mp hx, no_containsAt_iff.mp hc]
  have hinner : get_recommendations_inner title df sm n = Except.ok Frame.empty2 :=
    inner_notfound hres
  refine ⟨hinner, ?_, ?_⟩
  · simp [get_recommendations, hinner]
  · simp [get_recommendations, hinner, Frame.columns]

/-- C3 (witness): the amended theorem applied to the unmatched query zzz on
the spec catalog. -/
theorem C3_witness :
    get_recommendations_inner "zzz" narutoCatalog narutoSim 5 = Except.ok Frame.empty2 ∧
    get_recommendations "zzz" narutoCatalog narutoSim 5 = Frame.empty2 ∧
    (get_recommendations "zzz" narutoCatalog narutoSim 5).columns =
      ["Anime", "Similarity Score"] :=
  C3_amended "zzz" narutoCatalog narutoSim 5
    (no_exactAt_iff.mpr (by decide)) (no_containsAt_iff.mpr (by decide))

/-- C4: ranking uses the full-precision scores: the sim_scores selection is
sorted by the raw rational scores, and the two-decimal display formatting
is applied afterwards, pointwise, to exactly that already-ranked list — the
selection and order are fixed before any rounding of the displayed value. -/
theorem C4_full_precision_ranking (title : String) (df : List AnimeRow)
    (sm : List (List ℚ)) (n idx : Nat) (row : List ℚ)
    (hres : resolveTitle df title = some idx) (hrow : sm[idx]? = some row) :
    (simPairs row n).Pairwise (fun a b => b.2 ≤ a.2) ∧
    (∀ rows, get_recommendations title df sm n = Frame.table rows →
      rows.map RecRow.simScore = (simPairs row n).map fun p => format2dp p.2) := by
  refine ⟨(simPairs_pairwise row n).imp (fun h => h.1), ?_⟩
  intro rows hrec
  rcases inner_ok_table_iff.mp (get_rec_table_iff.mp hrec) with ⟨i, r, hres1, hrow1, hren⟩
  rw [hres] at hres1
  have hi : idx = i := Option.some.inj hres1
  rw [← hi] at hrow1
  rw [hrow] at hrow1
  have hr : row = r := Option.some.inj hrow1
  rw [← hr] at hren
  exact renderRows_map_simScore hren

/-- C4 (witness): the theorem applied to the spec scenario input. -/
theorem C4_witness :
    (simPairs [1, mkRat 9 10, mkRat 1 10] 2).Pairwise (fun a b => b.2 ≤ a.2) ∧
    (∀ rows, get_recommendations "naruto" narutoCatalog narutoSim 2 = Frame.table rows →
      rows.map RecRow.simScore =
        (simPairs [1, mkRat 9 10, mkRat 1 10] 2).map fun p => format2dp p.2) :=
  C4_full_precision_ranking "naruto" narutoCatalog narutoSim 2 0
    [1, mkRat 9 10, mkRat 1 10] (by decide) (by decide)

/-- C5: equal-score candidates keep original catalog order: the ranking list
is pairwise such that a tie in score forces strictly increasing catalog
index, and the returned table rows correspond one-to-one, in order, to that
ranking list. -/
theorem C5_stable_ties (title : String) (df : List AnimeRow)
    (sm : List (List ℚ)) (n idx : Nat) (row : List ℚ)
    (hres : resolveTitle df title = some idx) (hrow : sm[idx]? = some row) :
    (simPairs row n).Pairwise (fun a b => a.2 = b.2 → a.1 < b.1) ∧
    (∀ rows, get_recommendations title df sm n = Frame.table rows →
      List.Forall₂ (fun p r => (df[p.1]?).map AnimeRow.name = some r.anime)
        (simPairs row n) rows) := by
  refine ⟨(simPairs_pairwise row n).imp (fun h => h.2), ?_⟩
  intro rows hrec
  rcases inner_ok_table_iff.mp (get_rec_table_iff.mp hrec) with ⟨i, r, hres1, hrow1, hren⟩
  rw [hres] at hres1
  have hi : idx = i := Option.some.inj hres1
  rw [← hi] at hrow1
  rw [hrow] at hrow1
  have hr : row = r := Option.some.inj hrow1
  rw [← hr] at hren
  refine List.Forall₂.imp ?_ (renderRows_forall₂ hren)
  rintro p rr ⟨a, ha, hname, _, _, _⟩
  rw [ha, hname]
  rfl

/-- C5 (witness): the theorem applied to the spec scenario input. -/
theorem C5_witness :
    (simPairs [1, mkRat 9 10, mkRat 1 10] 2).Pairwise (fun a b => a.2 = b.2 → a.1 < b.1) ∧
    (∀ rows, get_recommendations "naruto" narutoCatalog narutoSim 2 = Frame.table rows →
      List.Forall₂ (fun p r => (narutoCatalog[p.1]?).map AnimeRow.name = some r.anime)
        (simPairs [1, mkRat 9 10, mkRat 1 10] 2) rows) :=
  C5_stable_ties "naruto" narutoCatalog narutoSim 2 0
    [1, mkRat 9 10, mkRat 1 10] (by decide) (by decide)

/-- C6: on a catalog with fewer than two items, paired with its square
similarity matrix, get_recommendations returns a result with no rows: a
legitimate empty success rather than a failure. -/
theorem C6_small_catalog_empty (title : String) (df : List AnimeRow)
    (sm : List (List ℚ)) (n : Nat)
    (hlen : df.length < 2) (hsq : sm.length = df.length)
    (hrows : ∀ r ∈ sm, r.length = df.length) :
    (get_recommendations title df sm n).rowsList = [] :=
  rowsList_empty_of_small hlen hsq hrows

/-- C6 (witness): the theorem applied to the one-item catalog. -/
theorem C6_witness : (get_recommendations "Solo" soloCatalog soloSim 5).rowsList = [] :=
  C6_small_catalog_empty "Solo" soloCatalog soloSim 5 (by decide) (by decide) (by decide)

/-- C7 (counterexample): the query B resolves to index 1 of a two-item
catalog whose similarity matrix has only one row; the missing row raises an
IndexError inside the try block, and get_recommendations returns the
ordinary empty sentinel frame to the caller — no InvalidIndex failure is
surfaced. -/
theorem C7_counterexample :
    resolveTitle dupCatalog "B" = some 1 ∧
    shortSim[1]? = (none : Option (List ℚ)) ∧
    get_recommendations_inner "B" dupCatalog shortSim 5 = Except.error PyError.indexError ∧
    get_recommendations "B" dupCatalog shortSim 5 = Frame.empty2 := by
  decide

/-- C7 (amended): when the resolved index has no row in the similarity
matrix, the try body raises an index error and the except handler converts
it into the empty sentinel frame — a normal result — instead of failing
with an InvalidIndex condition. -/
theorem C7_amended (title : String) (df : List AnimeRow) (sm : List (List ℚ))
    (n idx : Nat) (hres : resolveTitle df title = some idx) (hnone : sm[idx]? = none) :
    get_recommendations_inner title df sm n = Except.error PyError.indexError ∧
    get_recommendations title df sm n = Frame.empty2 := by
  have h : get_recommendations_inner title df sm n = Except.error PyError.indexError :=
    inner_noRow hres hnone
  exact ⟨h, get_rec_of_inner_error h⟩

/-- C7 (witness): the amended theorem applied to the short-matrix input. -/
theorem C7_witness :
    get_recommendations_inner "B" dupCatalog shortSim 5 = Except.error PyError.indexError ∧
    get_recommendations "B" dupCatalog shortSim 5 = Frame.empty2 :=
  C7_amended "B" dupCatalog shortSim 5 1 (by decide) (by decide)

/-- C8 (counterexample): in SearchSection.handleSearch a hybrid submission
with a non-empty title and an empty userId passes validation and the
request is sent, and in the second SearchForm variant a hybrid submission
with an empty title is likewise sent — so the claimed caller-side rule
that userId is required for hybrid (and title for hybrid) is not enforced
at those call sites. -/
theorem C8_counterexample :
    sectionHandleSearch ⟨"Naruto", "", "hybrid", 5, "all"⟩ =
      some ⟨"Naruto", "", "hybrid", 5, "all"⟩ ∧
    searchFormSubmitV3 ⟨Strategy.hybrid, some "", some "7", "5"⟩ =
      some ⟨Strategy.hybrid, some "", some "7", "5"⟩ := by
  decide

/-- C8 (amended): only the fully validating SearchForm variant enforces the
full contract — non-blank title for content and hybrid, non-blank userId
for collaborative and hybrid — rejecting the submission with no request
sent; the other SearchForm variant rejects only collaborative submissions
with a falsy userId, and SearchSection rejects only submissions whose
trimmed title is empty while the method is not collab, sending every other
request. -/
theorem C8_amended :
    (∀ p : SearchParams,
      ((p.strat = Strategy.content ∧ blankOpt p.title = true) ∨
       (p.strat = Strategy.collaborative ∧ blankOpt p.userId = true) ∨
       (p.strat = Strategy.hybrid ∧ (blankOpt p.title = true ∨ blankOpt p.userId = true))) →
      searchFormSubmitV2 p = none) ∧
    (∀ p : SearchParams, p.strat = Strategy.collaborative → falsyOpt p.userId = true →
      searchFormSubmitV3 p = none) ∧
    (∀ q : SectionQuery, trimStr q.title = "" → q.method ≠ "collab" →
      sectionHandleSearch q = none) ∧
    (∀ q : SectionQuery, trimStr q.title ≠ "" → sectionHandleSearch q = some q) := by
  refine ⟨?_, ?_, ?_, ?_⟩
  · rintro p (⟨h1, h2⟩ | ⟨h1, h2⟩ | ⟨h1, h2 | h2⟩) <;>
      simp [searchFormSubmitV2, h1, h2]
  · intro p h1 h2
    simp [searchFormSubmitV3, h1, h2]
  · intro q h1 h2
    simp [sectionHandleSearch, h1, h2]
  · intro q h
    simp [sectionHandleSearch, h]

/-- C9: get_recommendations is total at its interface: every input yields a
frame — either the sentinel or a table — and every internal exception path
yields the two-column sentinel, whose columns are Anime and Similarity
Score. -/
theorem C9_total_interface (title : String) (df : List AnimeRow)
    (sm : List (List ℚ)) (n : Nat) :
    ((∃ e, get_recommendations_inner title df sm n = Except.error e) →
      get_recommendations title df sm n = Frame.empty2) ∧
    (get_recommendations title df sm n = Frame.empty2 ∨
      ∃ rows, get_recommendations title df sm n = Frame.table rows) ∧
    Frame.columns Frame.empty2 = ["Anime", "Similarity Score"] := by
  refine ⟨?_, ?_, rfl⟩
  · rintro ⟨e, he⟩
    exact get_rec_of_inner_error he
  · cases h : get_recommendations title df sm n with
    | empty2 => exact Or.inl rfl
    | table rows => exact Or.inr ⟨rows, rfl⟩

/-- C10: every row of a non-empty result is built from the catalog row at
the selected index — Anime, Rating and Genres carry the stored values
unchanged — and the Similarity Score field is the full-precision score
formatted as a string ending in a point followed by exactly two decimal
digits; the numeric score itself is not delivered. -/
theorem C10_rendered_fields (title : String) (df : List AnimeRow)
    (sm : List (List ℚ)) (n : Nat) (rows : List RecRow)
    (h : get_recommendations title df sm n = Frame.table rows) :
    ∃ idx row, resolveTitle df title = some idx ∧ sm[idx]? = some row ∧
      List.Forall₂ (fun p r => ∃ a : AnimeRow, df[p.1]? = some a ∧
        r.anime = a.name ∧ r.rating = a.rating ∧ r.genres = a.genre ∧
        r.simScore = format2dp p.2 ∧
        ∃ (pre : String) (c1 c2 : Char),
          r.simScore = pre ++ "." ++ (⟨[c1, c2]⟩ : String) ∧
          c1.isDigit = true ∧ c2.isDigit = true)
        (simPairs row n) rows := by
  rcases inner_ok_table_iff.mp (get_rec_table_iff.mp h) with ⟨idx, row, hres, hrow, hren⟩
  refine ⟨idx, row, hres, hrow, ?_⟩
  refine List.Forall₂.imp ?_ (renderRows_forall₂ hren)
  rintro p r ⟨a, ha, hn, hs, hra, hg⟩
  refine ⟨a, ha, hn, hra, hg, hs, ?_⟩
  rw [hs]
  exact format2dp_two_decimals p.2

/-- C10 (witness): the theorem applied to the spec scenario, whose result
table lists Bleach with score 0.90 and K-On! with score 0.10. -/
theorem C10_witness :
    ∃ idx row, resolveTitle narutoCatalog "naruto" = some idx ∧
      narutoSim[idx]? = some row ∧
      List.Forall₂ (fun (p : Nat × ℚ) (r : RecRow) => ∃ a : AnimeRow,
        narutoCatalog[p.1]? = some a ∧
        r.anime = a.name ∧ r.rating = a.rating ∧ r.genres = a.genre ∧
        r.simScore = format2dp p.2 ∧
        ∃ (pre : String) (c1 c2 : Char),
          r.simScore = pre ++ "." ++ (⟨[c1, c2]⟩ : String) ∧
          c1.isDigit = true ∧ c2.isDigit = true)
        (simPairs row 2)
        [⟨"Bleach", "0.90", mkRat 15 2, "Action, Supernatural"⟩,
         ⟨"K-On!", "0.10", 7, "Slice of Life"⟩] :=
  C10_rendered_fields "naruto" narutoCatalog narutoSim 2
    [⟨"Bleach", "0.90", mkRat 15 2, "Action, Supernatural"⟩,
     ⟨"K-On!", "0.10", 7, "Slice of Life"⟩] (by decide)

end AniMatch
